import Mathlib

/-!
Verification of `scripts/generate_ai_videos.py`: a batch pipeline that, for
each named planet record in a JSON catalog, samples a text-to-image model
once per frame (deterministic seeds, lightly perturbed prompts), writes the
frames to a per-record working directory, and invokes ffmpeg to assemble
them into one MP4 per record.

The pure string/number computations (name sanitization, seed derivation,
prompt construction, frame file naming) are embedded directly.  The
effectful run (`generate_videos`) is embedded as a function from an
environment (availability of the optional library, of the HF token and of
ffmpeg, the loaded catalog, and per-record success oracles for the two
fallible external calls) to a trace of observable events plus an optional
fatal error.  Python Unicode character classes (`str.isalnum`, `str.strip`)
are modelled on their ASCII behaviour, which is what Lean's `Char.isAlphanum`
and `Char.isWhitespace` implement.
-/

namespace GenAiVideos

/-- Characters kept by the sanitizer on line 112 of the script:
`c.isalnum() or c in (' ', '-', '_')`. -/
def keepChar (c : Char) : Bool :=
  c.isAlphanum || c == ' ' || c == '-' || c == '_'

/-- Python `str.strip` on a list of characters: drop whitespace from both
ends. -/
def stripChars (l : List Char) : List Char :=
  ((l.dropWhile Char.isWhitespace).reverse.dropWhile Char.isWhitespace).reverse

/-- The character map realised by `.replace(' ', '_')`. -/
def replaceSpace (c : Char) : Char := if c == ' ' then '_' else c

/-- Line 112: `''.join(c for c in name if c.isalnum() or c in (' ', '-', '_')).strip().replace(' ', '_')`. -/
def sanitizeName (s : String) : String :=
  ⟨(stripChars (s.data.filter keepChar)).map replaceSpace⟩

/-- Line 129: `out_mp4 = out_base / f"<safe_name>.mp4"`. -/
def videoFileName (safeName : String) : String := safeName ++ ".mp4"

/-- Lines 63-65: `seeds = [int(1000 + i * 7) for i in range(num_frames)]`. -/
def defaultSeeds (numFrames : Nat) : List Nat :=
  (List.range numFrames).map (fun i => 1000 + i * 7)

/-- The fixed per-frame prompt suffix on line 69 (everything between the base
prompt and the interpolated frame number). -/
def cinematicSuffix : String :=
  ", cinematic, ultra-detailed, wide shot, subtle camera movement, frame "

/-- Line 69: `frame_prompt = prompt + f", cinematic, ... frame <i+1>"`; the
interpolated number is `i + 1`, one more than the 0-based index. -/
def framePrompt (prompt : String) (i : Nat) : String :=
  prompt ++ cinematicSuffix ++ toString (i + 1)

/-- Formulation taken from the spec's words for comparison ("a fixed
cinematic suffix naming that frame's index i", with `i` the 0-based index):
identical to `framePrompt` except that the interpolated number is `i`
itself. -/
def specFramePrompt (prompt : String) (i : Nat) : String :=
  prompt ++ cinematicSuffix ++ toString i

/-- Decimal digit characters of `n`, least significant first, computed with
explicit fuel (the recursion divides by 10 each step, so fuel `n + 1` is
always enough). -/
def digitsRevAux : Nat → Nat → List Char
  | 0, _ => []
  | fuel + 1, n =>
    if n < 10 then [Nat.digitChar n]
    else Nat.digitChar (n % 10) :: digitsRevAux fuel (n / 10)

/-- Decimal digit characters of `n`, most significant first. -/
def decimalDigits (n : Nat) : List Char := (digitsRevAux (n + 1) n).reverse

/-- Python `f"<i:04d>"`: the decimal digits of `i`, left padded with zeros to
a minimum width of four (numbers of five or more digits are not truncated). -/
def pad4 (i : Nat) : String :=
  ⟨List.replicate (4 - (decimalDigits i).length) '0' ++ decimalDigits i⟩

/-- Line 72: `frame_path = out_dir / f"frame_<i:04d>.png"`. -/
def frameFileName (i : Nat) : String := "frame_" ++ pad4 i ++ ".png"

/-- One generated frame: its on-disk file name, the prompt passed to the
model, and the seed used for the generator. -/
structure Frame where
  fileName : String
  prompt : String
  seed : Nat
deriving DecidableEq

/-- Lines 61-75, `make_frames_for_prompt`: if no seed list is supplied the
deterministic default seeds for `num_frames` frames are used, otherwise the
supplied list drives the loop (`for i, s in enumerate(seeds)`), and
`num_frames` is never read again. -/
def makeFramesForPrompt (prompt : String) (numFrames : Nat)
    (seeds : Option (List Nat)) : List Frame :=
  let ss := match seeds with
    | none => defaultSeeds numFrames
    | some l => l
  ss.enum.map (fun q => ⟨frameFileName q.1, framePrompt prompt q.1, q.2⟩)

/-- A catalog record, read with `planet.get('pl_name')` and
`planet.get('name')`. -/
structure Planet where
  pl_name : Option String
  name : Option String
deriving DecidableEq

/-- Python `a or b` on optional strings: the empty string is falsy. -/
def pyOrStr (a : Option String) (b : String) : String :=
  match a with
  | some s => if s.isEmpty then b else s
  | none => b

/-- Line 111: `name = planet.get('pl_name') or planet.get('name') or 'planet'`. -/
def planetName (p : Planet) : String := pyOrStr p.pl_name (pyOrStr p.name "planet")

/-- Line 113: the base prompt template. -/
def planetPrompt (name : String) : String :=
  "A cinematic, highly detailed landscape of the exoplanet named " ++ name ++
    ". Alien terrain, dramatic sky, vibrant colors, photorealistic"

/-- Command-line arguments of the script (lines 144-152).  `limit` is the
`--limit` flag, documented as "limit number of planets to process (0 = all)". -/
structure Args where
  frames : Nat
  fps : Nat
  width : Nat
  height : Nat
  limit : Nat

/-- The environment a run executes in: whether the optional
diffusers/torch import succeeded, whether a HF token env var is set,
whether the `ffmpeg -version` probe succeeds, the parsed catalog, and
per-record success oracles for the two fallible external calls (frame
generation for record `i`, and the ffmpeg encode for record `i`). -/
structure Env where
  diffusersAvailable : Bool
  hfTokenPresent : Bool
  ffmpegAvailable : Bool
  catalog : List Planet
  frameGenOk : Nat → Bool
  encodeOk : Nat → Bool

/-- Observable events of a run, in the order they happen. -/
inductive Event where
  | modelLoad
  | catalogLoaded
  | ffmpegChecked
  | recordStart (name : String)
  | dirCleared (dir : String)
  | frameWritten (dir : String) (file : String)
  | videoSaved (file : String)
  | encodeFailed (name : String)
deriving DecidableEq

/-- The run-fatal errors raised by `generate_videos` before the record loop. -/
inductive RunError where
  | diffusersMissing
  | tokenMissing
  | ffmpegMissing
deriving DecidableEq

/-- Lines 110-136, the body of the record loop for the record at position
`idx`: derive the name and its sanitized form, clear the record's working
directory, then try frame generation (`continue` on failure, skipping the
encode entirely), then try the encode (failure is logged and the loop goes
on).  A failed frame generation is modelled as producing no frame events;
only the absence of the video event matters to the claims. -/
def processPlanet (args : Args) (env : Env) (idx : Nat) (p : Planet) : List Event :=
  let name := planetName p
  let safe := sanitizeName name
  [Event.recordStart name, Event.dirCleared safe] ++
    (if env.frameGenOk idx then
      ((makeFramesForPrompt (planetPrompt name) args.frames none).map
          (fun fr => Event.frameWritten safe fr.fileName)) ++
        (if env.encodeOk idx then [Event.videoSaved (videoFileName safe)]
         else [Event.encodeFailed name])
     else [])

/-- Lines 89-139, `generate_videos`: check the optional import, check the
token, load the model, load the catalog, check ffmpeg, then loop over the
whole catalog in order.  Note two facts taken directly from the source: the
model load and the catalog load happen before `ensure_ffmpeg()` is called,
and `args.limit` is never read, so the loop always runs over the full
catalog. -/
def generate_videos (args : Args) (env : Env) : List Event × Option RunError :=
  if !env.diffusersAvailable then ([], some RunError.diffusersMissing)
  else if !env.hfTokenPresent then ([], some RunError.tokenMissing)
  else if !env.ffmpegAvailable then
    ([Event.modelLoad, Event.catalogLoaded], some RunError.ffmpegMissing)
  else
    ([Event.modelLoad, Event.catalogLoaded, Event.ffmpegChecked] ++
      (env.catalog.enum.map (fun ip => processPlanet args env ip.1 ip.2)).flatten,
     none)

/-- Names of the records the loop started working on, in order. -/
def attemptedRecords (evs : List Event) : List String :=
  evs.filterMap (fun e => match e with
    | Event.recordStart n => some n
    | _ => none)

/-- Frame files written during the run, as (directory, file) pairs. -/
def framesWritten (evs : List Event) : List (String × String) :=
  evs.filterMap (fun e => match e with
    | Event.frameWritten d f => some (d, f)
    | _ => none)

/-- Video files saved during the run, in order. -/
def videosSaved (evs : List Event) : List String :=
  evs.filterMap (fun e => match e with
    | Event.videoSaved f => some f
    | _ => none)

/-- Number of model-load attempts in the trace. -/
def modelLoads (evs : List Event) : Nat :=
  (evs.filter (fun e => match e with
    | Event.modelLoad => true
    | _ => false)).length

/-- Lines 115-120: the state of one record's working directory.  `none`
means the directory does not exist yet (`mkdir` creates it empty); otherwise
every contained file is passed to `unlink`. -/
def clearRecordDir (existing : Option (List String)) : List String :=
  match existing with
  | none => []
  | some files => files.foldl (fun acc f => acc.erase f) files

/-- Contents of a record's working directory after clearing and a successful
frame generation pass for `numFrames` frames. -/
def recordDirContents (existing : Option (List String)) (basePrompt : String)
    (numFrames : Nat) : List String :=
  clearRecordDir existing ++
    (makeFramesForPrompt basePrompt numFrames none).map (fun fr => fr.fileName)

end GenAiVideos

namespace GenAiVideos

/-! Decimal digit and lexicographic-order lemmas for frame file names. -/

lemma digitsRevAux_small {f n : Nat} (hf : 0 < f) (h : n < 10) :
    digitsRevAux f n = [Nat.digitChar n] := by
  cases f with
  | zero => omega
  | succ f => simp [digitsRevAux, h]

lemma digitsRevAux_step {f n : Nat} (hf : 0 < f) (h : ¬ n < 10) :
    digitsRevAux f n = Nat.digitChar (n % 10) :: digitsRevAux (f - 1) (n / 10) := by
  cases f with
  | zero => omega
  | succ f => simp [digitsRevAux, h]

lemma decimalDigits_band1 {n : Nat} (h : n < 10) :
    decimalDigits n = [Nat.digitChar n] := by
  unfold decimalDigits
  rw [digitsRevAux_small (Nat.succ_pos n) h]
  rfl

lemma decimalDigits_band2 {n : Nat} (h1 : 10 ≤ n) (h2 : n < 100) :
    decimalDigits n = [Nat.digitChar (n / 10), Nat.digitChar (n % 10)] := by
  unfold decimalDigits
  rw [digitsRevAux_step (by omega) (by omega)]
  simp only [Nat.add_sub_cancel]
  rw [digitsRevAux_small (by omega) (by omega : n / 10 < 10)]
  rfl

lemma decimalDigits_band3 {n : Nat} (h1 : 100 ≤ n) (h2 : n < 1000) :
    decimalDigits n =
      [Nat.digitChar (n / 100), Nat.digitChar (n / 10 % 10), Nat.digitChar (n % 10)] := by
  unfold decimalDigits
  rw [digitsRevAux_step (by omega) (by omega)]
  simp only [Nat.add_sub_cancel]
  rw [digitsRevAux_step (by omega : 0 < n) (by omega : ¬ n / 10 < 10)]
  rw [show n / 10 / 10 = n / 100 by omega]
  rw [digitsRevAux_small (by omega : 0 < n - 1) (by omega : n / 100 < 10)]
  rfl

lemma decimalDigits_band4 {n : Nat} (h1 : 1000 ≤ n) (h2 : n < 10000) :
    decimalDigits n =
      [Nat.digitChar (n / 1000), Nat.digitChar (n / 100 % 10),
       Nat.digitChar (n / 10 % 10), Nat.digitChar (n % 10)] := by
  unfold decimalDigits
  rw [digitsRevAux_step (by omega) (by omega)]
  simp only [Nat.add_sub_cancel]
  rw [digitsRevAux_step (by omega : 0 < n) (by omega : ¬ n / 10 < 10)]
  rw [show n / 10 / 10 = n / 100 by omega]
  rw [digitsRevAux_step (by omega : 0 < n - 1) (by omega : ¬ n / 100 < 10)]
  rw [show n / 100 / 10 = n / 1000 by omega]
  rw [digitsRevAux_small (by omega : 0 < n - 1 - 1) (by omega : n / 1000 < 10)]
  rfl

lemma pad4_data (i : Nat) :
    (pad4 i).data = List.replicate (4 - (decimalDigits i).length) '0' ++ decimalDigits i :=
  rfl

/-- For indices below 10000 the padded representation is exactly the four
decimal digits, most significant first. -/
lemma pad4_quad {i : Nat} (h : i < 10000) :
    (pad4 i).data =
      [Nat.digitChar (i / 1000 % 10), Nat.digitChar (i / 100 % 10),
       Nat.digitChar (i / 10 % 10), Nat.digitChar (i % 10)] := by
  rcases (by omega :
      i < 10 ∨ (10 ≤ i ∧ i < 100) ∨ (100 ≤ i ∧ i < 1000) ∨ (1000 ≤ i ∧ i < 10000)) with
    h1 | ⟨h1, h2⟩ | ⟨h1, h2⟩ | ⟨h1, h2⟩
  · rw [pad4_data, decimalDigits_band1 h1]
    rw [show i / 1000 % 10 = 0 by omega, show i / 100 % 10 = 0 by omega,
        show i / 10 % 10 = 0 by omega, show i % 10 = i by omega]
    rfl
  · rw [pad4_data, decimalDigits_band2 h1 h2]
    rw [show i / 1000 % 10 = 0 by omega, show i / 100 % 10 = 0 by omega,
        show i / 10 % 10 = i / 10 by omega]
    rfl
  · rw [pad4_data, decimalDigits_band3 h1 h2]
    rw [show i / 1000 % 10 = 0 by omega, show i / 100 % 10 = i / 100 by omega]
    rfl
  · rw [pad4_data, decimalDigits_band4 h1 h2]
    rw [show i / 1000 % 10 = i / 1000 by omega]
    rfl

lemma digitChar_lt_iff :
    ∀ a, a < 10 → ∀ b, b < 10 → (Nat.digitChar a < Nat.digitChar b ↔ a < b) := by
  decide

lemma lex_append_left (p as bs : List Char) (h : List.Lex (· < ·) as bs) :
    List.Lex (· < ·) (p ++ as) (p ++ bs) := by
  induction p with
  | nil => simpa
  | cons c cs ih => exact List.Lex.cons ih

lemma lex_append {m1 m2 : List Char} (h : List.Lex (· < ·) m1 m2) :
    m1.length = m2.length →
      ∀ s1 s2 : List Char, List.Lex (· < ·) (m1 ++ s1) (m2 ++ s2) := by
  induction h with
  | nil => intro hlen; simp at hlen
  | cons h ih => intro hlen s1 s2; exact List.Lex.cons (ih (by simpa using hlen) s1 s2)
  | rel h => intro _ s1 s2; exact List.Lex.rel h

lemma quad_lt {i j : Nat} (hij : i < j) (hj : j < 10000) :
    List.Lex (· < ·) (pad4 i).data (pad4 j).data := by
  have hi : i < 10000 := by omega
  rw [pad4_quad hi, pad4_quad hj]
  by_cases h1 : i / 1000 % 10 < j / 1000 % 10
  · exact List.Lex.rel ((digitChar_lt_iff _ (by omega) _ (by omega)).mpr h1)
  · have e1 : i / 1000 % 10 = j / 1000 % 10 := by omega
    rw [e1]
    apply List.Lex.cons
    by_cases h2 : i / 100 % 10 < j / 100 % 10
    · exact List.Lex.rel ((digitChar_lt_iff _ (by omega) _ (by omega)).mpr h2)
    · have e2 : i / 100 % 10 = j / 100 % 10 := by omega
      rw [e2]
      apply List.Lex.cons
      by_cases h3 : i / 10 % 10 < j / 10 % 10
      · exact List.Lex.rel ((digitChar_lt_iff _ (by omega) _ (by omega)).mpr h3)
      · have e3 : i / 10 % 10 = j / 10 % 10 := by omega
        rw [e3]
        apply List.Lex.cons
        have h4 : i % 10 < j % 10 := by omega
        exact List.Lex.rel ((digitChar_lt_iff _ (by omega) _ (by omega)).mpr h4)

/-- Strict monotonicity of frame file names in the lexicographic string
order, for indices below 10000 (where the padded field has constant width). -/
lemma frameFileName_lt {i j : Nat} (hij : i < j) (hj : j < 10000) :
    frameFileName i < frameFileName j := by
  rw [String.lt_iff_toList_lt]
  show List.Lex (· < ·) (frameFileName i).data (frameFileName j).data
  have hdata : ∀ k : Nat,
      (frameFileName k).data = "frame_".data ++ ((pad4 k).data ++ ".png".data) := by
    intro k
    rw [show (frameFileName k).data = ("frame_".data ++ (pad4 k).data) ++ ".png".data from rfl,
        List.append_assoc]
  rw [hdata i, hdata j]
  exact lex_append_left _ _ _
    (lex_append (quad_lt hij hj)
      (by rw [pad4_quad (by omega : i < 10000), pad4_quad hj]; rfl) _ _)

/-! The frame sampler in closed form. -/

lemma enum_map_range (F : Nat) (f : Nat → Nat) :
    ((List.range F).map f).enum = (List.range F).map (fun i => (i, f i)) := by
  apply List.ext_getElem
  · simp [List.enum]
  · intro i h1 h2
    simp [List.enum, List.getElem_enumFrom]

/-- Closed form of the frame sampler when no seed list is supplied. -/
lemma makeFrames_none_eq (p : String) (F : Nat) :
    makeFramesForPrompt p F none =
      (List.range F).map
        (fun i => ⟨frameFileName i, framePrompt p i, 1000 + i * 7⟩) := by
  rw [show makeFramesForPrompt p F none =
        ((List.range F).map (fun i => 1000 + i * 7)).enum.map
          (fun q => ⟨frameFileName q.1, framePrompt p q.1, q.2⟩) from rfl]
  rw [enum_map_range, List.map_map]
  rfl

lemma foldl_erase_self {α : Type} [BEq α] [LawfulBEq α] :
    ∀ l : List α, l.foldl (fun acc f => acc.erase f) l = []
  | [] => rfl
  | a :: t => by
    show (a :: t).foldl (fun acc f => acc.erase f) (a :: t) = []
    rw [List.foldl_cons, List.erase_cons_head]
    exact foldl_erase_self t

/-! Character-level facts about the sanitizer. -/

lemma keep_not_whitespace {c : Char} (hk : keepChar c = true) (hsp : c ≠ ' ') :
    Char.isWhitespace c = false := by
  cases hw : Char.isWhitespace c with
  | false => rfl
  | true =>
    exfalso
    have hcases : ((c = ' ' ∨ c = '\t') ∨ c = '\r') ∨ c = '\n' := by
      simpa [Char.isWhitespace, Bool.or_eq_true, decide_eq_true_eq] using hw
    rcases hcases with ((h | h) | h) | h
    · exact hsp h
    · subst h; exact absurd hk (by decide)
    · subst h; exact absurd hk (by decide)
    · subst h; exact absurd hk (by decide)

lemma mem_stripChars {c : Char} {l : List Char} (h : c ∈ stripChars l) : c ∈ l := by
  unfold stripChars at h
  rw [List.mem_reverse] at h
  have h1 : c ∈ (l.dropWhile Char.isWhitespace).reverse :=
    (List.dropWhile_sublist _).mem h
  rw [List.mem_reverse] at h1
  exact (List.dropWhile_sublist _).mem h1

/-- Every character of a sanitized name is kept by the filter, is not a
space, and is not whitespace at all. -/
lemma sanitize_mem {c : Char} {s : String} (h : c ∈ (sanitizeName s).data) :
    keepChar c = true ∧ c ≠ ' ' ∧ Char.isWhitespace c = false := by
  replace h : c ∈ (stripChars (s.data.filter keepChar)).map replaceSpace := h
  rw [List.mem_map] at h
  obtain ⟨c0, hc0, rfl⟩ := h
  have hkeep : keepChar c0 = true := List.of_mem_filter (mem_stripChars hc0)
  by_cases hsp : c0 = ' '
  · subst hsp
    exact ⟨by decide, by decide, by decide⟩
  · have hrep : replaceSpace c0 = c0 := by simp [replaceSpace, hsp]
    rw [hrep]
    exact ⟨hkeep, hsp, keep_not_whitespace hkeep hsp⟩

lemma dropWhile_ws_eq_self {l : List Char}
    (h : ∀ c ∈ l, Char.isWhitespace c = false) :
    l.dropWhile Char.isWhitespace = l := by
  cases l with
  | nil => rfl
  | cons a t =>
    rw [List.dropWhile_cons, if_neg (by simp [h a (List.mem_cons_self a t)])]

lemma stripChars_eq_self {l : List Char}
    (h : ∀ c ∈ l, Char.isWhitespace c = false) :
    stripChars l = l := by
  unfold stripChars
  rw [dropWhile_ws_eq_self h]
  rw [dropWhile_ws_eq_self (fun c hc => h c (List.mem_reverse.mp hc))]
  exact List.reverse_reverse l

/-! Per-record and whole-run trace lemmas. -/

lemma attempted_processPlanet (args : Args) (env : Env) (idx : Nat) (p : Planet) :
    attemptedRecords (processPlanet args env idx p) = [planetName p] := by
  by_cases hf : env.frameGenOk idx <;> by_cases he : env.encodeOk idx <;>
    simp [attemptedRecords, processPlanet, hf, he, List.filterMap_append,
      List.filterMap_map, Function.comp]

lemma videos_processPlanet (args : Args) (env : Env) (idx : Nat) (p : Planet) :
    videosSaved (processPlanet args env idx p) =
      (if env.frameGenOk idx && env.encodeOk idx
       then [videoFileName (sanitizeName (planetName p))] else []) := by
  by_cases hf : env.frameGenOk idx <;> by_cases he : env.encodeOk idx <;>
    simp [videosSaved, processPlanet, hf, he, List.filterMap_append,
      List.filterMap_map, Function.comp]

lemma filterMap_flatten {α : Type} (g : Event → Option α) :
    ∀ ls : List (List Event),
      ls.flatten.filterMap g = (ls.map (fun l => l.filterMap g)).flatten
  | [] => rfl
  | l :: ls => by
    rw [List.flatten_cons, List.filterMap_append, List.map_cons, List.flatten_cons,
      filterMap_flatten g ls]

lemma flatten_singletons {α β : Type} (f : α → β) :
    ∀ l : List α, (l.map (fun x => [f x])).flatten = l.map f
  | [] => rfl
  | a :: t => by
    rw [List.map_cons, List.flatten_cons, List.map_cons, List.singleton_append,
      flatten_singletons f t]

lemma flatten_ite {α β : Type} (c : α → Bool) (v : α → β) :
    ∀ l : List α,
      (l.map (fun x => if c x then [v x] else [])).flatten = (l.filter c).map v
  | [] => rfl
  | a :: t => by
    by_cases hc : c a <;>
      simp [hc, List.filter_cons, flatten_ite c v t]

lemma enum_map_snd_comp {α β : Type} (f : α → β) (l : List α) :
    l.enum.map (fun ip => f ip.2) = l.map f := by
  rw [show (fun ip : Nat × α => f ip.2) = f ∘ Prod.snd from rfl, ← List.map_map]
  rw [show l.enum = l.enumFrom 0 from rfl, List.enumFrom_map_snd]

/-- The trace of a run whose three up-front checks all pass. -/
lemma generate_videos_ok (args : Args) (env : Env)
    (hd : env.diffusersAvailable = true) (ht : env.hfTokenPresent = true)
    (hf : env.ffmpegAvailable = true) :
    generate_videos args env =
      ([Event.modelLoad, Event.catalogLoaded, Event.ffmpegChecked] ++
        (env.catalog.enum.map (fun ip => processPlanet args env ip.1 ip.2)).flatten,
       none) := by
  simp [generate_videos, hd, ht, hf]

end GenAiVideos

namespace GenAiVideos

example : sanitizeName "  a b  " = "a_b" := by decide
example : frameFileName 3 = "frame_0003.png" := by decide
example : frameFileName 10000 = "frame_10000.png" := by decide
example : defaultSeeds 3 = [1000, 1007, 1014] := by decide
example : frameFileName 3 < frameFileName 7 := frameFileName_lt (by omega) (by omega)

/-- C1 (corrected): the claim that a failing `ffmpeg -version` probe means
zero model-load attempts is false: in the source the model is loaded before
`ensure_ffmpeg()` runs, so a run whose only defect is a missing encoder
still performs one model-load attempt. -/
theorem ffmpeg_missing_still_loads_model :
    (generate_videos ⟨2, 12, 1024, 576, 0⟩
        ⟨true, true, false, [⟨none, some "Kepler-10b"⟩], fun _ => true, fun _ => true⟩).2 =
      some RunError.ffmpegMissing ∧
    modelLoads (generate_videos ⟨2, 12, 1024, 576, 0⟩
        ⟨true, true, false, [⟨none, some "Kepler-10b"⟩], fun _ => true, fun _ => true⟩).1 ≠ 0 := by
  constructor
  · rfl
  · decide

/-- C1 (amended): if the import and token checks pass but the encoder probe
fails, the run aborts with the dependency error before any per-record work:
zero frames are written and zero records are attempted — but the model-load
attempt has already happened (exactly one), because the source loads the
model before calling `ensure_ffmpeg`. -/
theorem ffmpeg_missing_aborts_before_records (args : Args) (env : Env)
    (hd : env.diffusersAvailable = true) (ht : env.hfTokenPresent = true)
    (hf : env.ffmpegAvailable = false) :
    (generate_videos args env).2 = some RunError.ffmpegMissing ∧
    framesWritten (generate_videos args env).1 = [] ∧
    attemptedRecords (generate_videos args env).1 = [] ∧
    modelLoads (generate_videos args env).1 = 1 := by
  simp [generate_videos, hd, ht, hf, framesWritten, attemptedRecords, modelLoads]

/-- C1 witness: the amended theorem applied at a concrete run. -/
theorem ffmpeg_missing_aborts_before_records_witness :
    (generate_videos ⟨1, 12, 640, 480, 0⟩
        ⟨true, true, false, [⟨some "X", none⟩], fun _ => true, fun _ => true⟩).2 =
      some RunError.ffmpegMissing ∧
    framesWritten (generate_videos ⟨1, 12, 640, 480, 0⟩
        ⟨true, true, false, [⟨some "X", none⟩], fun _ => true, fun _ => true⟩).1 = [] ∧
    attemptedRecords (generate_videos ⟨1, 12, 640, 480, 0⟩
        ⟨true, true, false, [⟨some "X", none⟩], fun _ => true, fun _ => true⟩).1 = [] ∧
    modelLoads (generate_videos ⟨1, 12, 640, 480, 0⟩
        ⟨true, true, false, [⟨some "X", none⟩], fun _ => true, fun _ => true⟩).1 = 1 :=
  ffmpeg_missing_aborts_before_records _ _ rfl rfl rfl

/-- C2 (code bug): `--limit` is parsed (line 149) and documented as "limit
number of planets to process (0 = all)", but `generate_videos` never reads
`args.limit`: with a two-record catalog and limit 1, both records are
attempted, not `min 2 1 = 1`. -/
theorem limit_flag_ignored :
    attemptedRecords (generate_videos ⟨0, 12, 1024, 576, 1⟩
        ⟨true, true, true, [⟨some "A", none⟩, ⟨some "B", none⟩],
         fun _ => true, fun _ => true⟩).1 = ["A", "B"] ∧
    (["A", "B"].length : Nat) ≠ min 2 1 := by
  constructor
  · decide
  · decide

/-- C3 (counterexample): the sanitized identifier of `"??bad/name"` is not
`"bad_name"` — the slash is removed, not replaced by an underscore, so there
is nothing to turn into an underscore. -/
theorem sanitize_bad_name_counterexample :
    sanitizeName "??bad/name" ≠ "bad_name" := by decide

/-- C3 (amended): sanitizing `"??bad/name"` yields `"badname"` and
`"Kepler-10b"` is unchanged; running the spec's two-record example catalog
(frames = 2) through the pipeline saves exactly the videos
`Kepler-10b.mp4` and `badname.mp4`, in catalog order. -/
theorem sanitize_example_names :
    sanitizeName "??bad/name" = "badname" ∧
    sanitizeName "Kepler-10b" = "Kepler-10b" ∧
    videosSaved (generate_videos ⟨2, 12, 1024, 576, 0⟩
        ⟨true, true, true, [⟨none, some "Kepler-10b"⟩, ⟨none, some "??bad/name"⟩],
         fun _ => true, fun _ => true⟩).1 = ["Kepler-10b.mp4", "badname.mp4"] := by
  refine ⟨by decide, by decide, by decide⟩

/-- C4: with no explicit seed list, the seed sequence of a run with frame
count `F` is `[1000 + 7*0, 1000 + 7*1, ...]`, i.e. the seed of frame `i` is
`1000 + 7*i`; the right-hand side depends only on `F`, so two runs with the
same frame count and no seed override derive identical seed sequences
whatever their prompts. -/
theorem seed_sequence_formula (p : String) (F : Nat) :
    (makeFramesForPrompt p F none).map Frame.seed =
      (List.range F).map (fun i => 1000 + 7 * i) := by
  rw [makeFrames_none_eq, List.map_map]
  exact List.map_congr_left (fun i _ => by show 1000 + i * 7 = 1000 + 7 * i; omega)

/-- C5 (counterexample): with frame count 10001 the file names written by
the sampler are not lexicographically sorted: `frame_10000.png` sorts before
`frame_9999.png`, so lexical order no longer coincides with numeric order. -/
theorem frame_filename_order_breaks_at_10000 :
    ¬ (((makeFramesForPrompt "p" 10001 none).map Frame.fileName).Pairwise
        (fun a b => a < b)) := by
  intro h
  rw [makeFrames_none_eq, List.map_map, List.pairwise_iff_getElem] at h
  have h2 := h 9999 10000
    (by simp only [List.length_map, List.length_range]; omega)
    (by simp only [List.length_map, List.length_range]; omega)
    (by omega)
  simp only [List.getElem_map, List.getElem_range, Function.comp] at h2
  rw [String.lt_iff_toList_lt] at h2
  exact absurd h2 (by decide)

/-- C5 (amended): for every frame count `F ≤ 10000` and no seed override,
the sampler writes exactly `F` frame files, whose names are
`frame_0000.png` through the zero-padded `F - 1`, contiguous, strictly
lexicographically sorted (so lexical order coincides with numeric order)
and pairwise distinct.  For `F > 10000` the five-digit names break the
lexical ordering (see the counterexample). -/
theorem frame_filenames_sorted_below_10000 (p : String) (F : Nat)
    (hF : F ≤ 10000) :
    ((makeFramesForPrompt p F none).map Frame.fileName).length = F ∧
    (makeFramesForPrompt p F none).map Frame.fileName =
      (List.range F).map frameFileName ∧
    ((makeFramesForPrompt p F none).map Frame.fileName).Pairwise
      (fun a b => a < b) ∧
    ((makeFramesForPrompt p F none).map Frame.fileName).Nodup := by
  have hmap : (makeFramesForPrompt p F none).map Frame.fileName =
      (List.range F).map frameFileName := by
    rw [makeFrames_none_eq, List.map_map]
    rfl
  have hpair : ((makeFramesForPrompt p F none).map Frame.fileName).Pairwise
      (fun a b => a < b) := by
    rw [hmap, List.pairwise_iff_getElem]
    intro a b ha hb hab
    simp only [List.getElem_map, List.getElem_range]
    have hbF : b < F := by simpa using hb
    exact frameFileName_lt hab (by omega)
  refine ⟨by rw [hmap]; simp, hmap, hpair, ?_⟩
  exact hpair.imp (fun h => ne_of_lt h)

/-- C5 witness: the amended theorem applied at frame count 2. -/
theorem frame_filenames_sorted_below_10000_witness :
    (2 : Nat) ≤ 10000 ∧
    (((makeFramesForPrompt "x" 2 none).map Frame.fileName).length = 2 ∧
     (makeFramesForPrompt "x" 2 none).map Frame.fileName =
       (List.range 2).map frameFileName ∧
     ((makeFramesForPrompt "x" 2 none).map Frame.fileName).Pairwise
       (fun a b => a < b) ∧
     ((makeFramesForPrompt "x" 2 none).map Frame.fileName).Nodup) :=
  ⟨by decide, frame_filenames_sorted_below_10000 "x" 2 (by decide)⟩

/-- C6: in a run whose up-front checks pass, the run finishes without a
fatal error, every catalog record is attempted in order regardless of
per-record failures, and the saved videos are exactly those of the records
whose frame generation and encode both succeeded — so a record whose frame
generation threw gets no video (its encode step is skipped), and neither a
frame-generation failure nor an encode failure stops later records. -/
theorem record_failures_isolated (args : Args) (env : Env)
    (hd : env.diffusersAvailable = true) (ht : env.hfTokenPresent = true)
    (hf : env.ffmpegAvailable = true) :
    (generate_videos args env).2 = none ∧
    attemptedRecords (generate_videos args env).1 = env.catalog.map planetName ∧
    videosSaved (generate_videos args env).1 =
      ((env.catalog.enum.filter
          (fun ip => env.frameGenOk ip.1 && env.encodeOk ip.1)).map
        (fun ip => videoFileName (sanitizeName (planetName ip.2)))) := by
  rw [generate_videos_ok args env hd ht hf]
  refine ⟨rfl, ?_, ?_⟩
  · show attemptedRecords (_ ++ _) = _
    unfold attemptedRecords
    rw [List.filterMap_append, filterMap_flatten, List.map_map]
    rw [show ((fun l : List Event => l.filterMap (fun e => match e with
          | Event.recordStart n => some n
          | _ => none)) ∘ fun ip : Nat × Planet => processPlanet args env ip.1 ip.2)
        = fun ip : Nat × Planet => attemptedRecords (processPlanet args env ip.1 ip.2)
        from rfl]
    simp only [attempted_processPlanet]
    rw [flatten_singletons (fun ip : Nat × Planet => planetName ip.2) env.catalog.enum,
      enum_map_snd_comp]
    rfl
  · show videosSaved (_ ++ _) = _
    unfold videosSaved
    rw [List.filterMap_append, filterMap_flatten, List.map_map]
    rw [show ((fun l : List Event => l.filterMap (fun e => match e with
          | Event.videoSaved f => some f
          | _ => none)) ∘ fun ip : Nat × Planet => processPlanet args env ip.1 ip.2)
        = fun ip : Nat × Planet => videosSaved (processPlanet args env ip.1 ip.2)
        from rfl]
    simp only [videos_processPlanet]
    rw [flatten_ite (fun ip : Nat × Planet => env.frameGenOk ip.1 && env.encodeOk ip.1)
      (fun ip : Nat × Planet => videoFileName (sanitizeName (planetName ip.2)))
      env.catalog.enum]
    rfl

/-- C6 witness: a three-record run in which the middle record's frame
generation fails and the third record's encode fails. -/
theorem record_failures_isolated_witness :
    (generate_videos ⟨1, 12, 8, 8, 0⟩
        ⟨true, true, true, [⟨some "A", none⟩, ⟨some "B", none⟩, ⟨some "C", none⟩],
         fun i => !(i == 1), fun i => !(i == 2)⟩).2 = none ∧
    attemptedRecords (generate_videos ⟨1, 12, 8, 8, 0⟩
        ⟨true, true, true, [⟨some "A", none⟩, ⟨some "B", none⟩, ⟨some "C", none⟩],
         fun i => !(i == 1), fun i => !(i == 2)⟩).1 =
      ([⟨some "A", none⟩, ⟨some "B", none⟩, ⟨some "C", none⟩] : List Planet).map
        planetName ∧
    videosSaved (generate_videos ⟨1, 12, 8, 8, 0⟩
        ⟨true, true, true, [⟨some "A", none⟩, ⟨some "B", none⟩, ⟨some "C", none⟩],
         fun i => !(i == 1), fun i => !(i == 2)⟩).1 =
      ((([⟨some "A", none⟩, ⟨some "B", none⟩, ⟨some "C", none⟩] : List Planet).enum.filter
          (fun ip => !(ip.1 == 1) && !(ip.1 == 2))).map
        (fun ip => videoFileName (sanitizeName (planetName ip.2)))) :=
  record_failures_isolated _ _ rfl rfl rfl

/-- C7: the sanitization operation is idempotent — sanitizing an already
sanitized name yields it unchanged. -/
theorem sanitizeName_idempotent (s : String) :
    sanitizeName (sanitizeName s) = sanitizeName s := by
  have hmem := fun c (hc : c ∈ (sanitizeName s).data) => sanitize_mem hc
  show (⟨(stripChars ((sanitizeName s).data.filter keepChar)).map replaceSpace⟩ : String)
      = sanitizeName s
  rw [List.filter_eq_self.mpr (fun c hc => (hmem c hc).1)]
  rw [stripChars_eq_self (fun c hc => (hmem c hc).2.2)]
  rw [show ((sanitizeName s).data).map replaceSpace = ((sanitizeName s).data).map id from
    List.map_congr_left (fun c hc => by simp [replaceSpace, (hmem c hc).2.1])]
  rw [List.map_id]

/-- C8: whatever a record's working directory contained before (including
frames left over from an earlier run), it is cleared to empty before new
generation begins, and after a successful generation pass its contents are
exactly the `F` fresh frame files — independent of the pre-existing
contents, so frames from different runs never mix. -/
theorem record_dir_cleared_before_generation (existing : Option (List String))
    (basePrompt : String) (F : Nat) :
    clearRecordDir existing = [] ∧
    recordDirContents existing basePrompt F = (List.range F).map frameFileName := by
  have hclear : clearRecordDir existing = [] := by
    cases existing with
    | none => rfl
    | some files => exact foldl_erase_self files
  refine ⟨hclear, ?_⟩
  unfold recordDirContents
  rw [hclear, List.nil_append, makeFrames_none_eq, List.map_map]
  rfl

/-- C9 (counterexample): the prompt of the frame at index 0 is not the base
prompt followed by the suffix naming index 0 — the source interpolates
`i + 1`, so frame 0's prompt ends in "frame 1". -/
theorem frame_prompt_index_counterexample :
    (makeFramesForPrompt "p" 1 none).map Frame.prompt ≠ [specFramePrompt "p" 0] := by
  decide

/-- C9 (amended): the prompt of the frame at 0-based index `i` equals the
base prompt followed by the fixed cinematic suffix naming `i + 1` (the
1-based frame number), not the index `i` itself. -/
theorem frame_prompts_formula (p : String) (F : Nat) :
    (makeFramesForPrompt p F none).map Frame.prompt =
      (List.range F).map (fun i => p ++ cinematicSuffix ++ toString (i + 1)) := by
  rw [makeFrames_none_eq, List.map_map]
  rfl

/-- C10: when an explicit seed list is supplied, the sampler's output is
independent of `num_frames`, produces exactly one frame per seed, and the
seeds used are exactly the supplied list in order. -/
theorem explicit_seeds_determine_count (p : String) (n1 n2 : Nat)
    (seeds : List Nat) :
    makeFramesForPrompt p n1 (some seeds) = makeFramesForPrompt p n2 (some seeds) ∧
    (makeFramesForPrompt p n1 (some seeds)).length = seeds.length ∧
    (makeFramesForPrompt p n1 (some seeds)).map Frame.seed = seeds := by
  refine ⟨rfl, ?_, ?_⟩
  · show (seeds.enum.map _).length = seeds.length
    simp [List.enum]
  · show (seeds.enum.map
      (fun q => (⟨frameFileName q.1, framePrompt p q.1, q.2⟩ : Frame))).map Frame.seed
        = seeds
    rw [List.map_map]
    rw [show (Frame.seed ∘ fun q : Nat × Nat =>
          (⟨frameFileName q.1, framePrompt p q.1, q.2⟩ : Frame)) = Prod.snd from rfl]
    rw [show seeds.enum = seeds.enumFrom 0 from rfl, List.enumFrom_map_snd]

end GenAiVideos
